import Mathlib

/-!
Verification development for the medix-backend bill extraction and
reconciliation pipeline.  The definitions below are shallow embeddings of
the TypeScript source files:

* `src/services/openRouterExtraction.service.ts` — tolerant JSON decoding of
  the model response (`parseBillText`);
* `src/controllers/billImport.controller.ts` — the batch reconciler
  (`confirmImport`, newer variant), the expiry-date interpreter
  (`parseExpiryDate`), and the multi-page orchestrator fold (`importBill`).

JavaScript dynamic values are modelled by the inductive type `JVal`
(`undefined` is modelled as `Option.none` at the use sites), JS `Number`
coercion by `jvToNumber` (with `none` standing for `NaN`), and JS string
coercion by `jvToString`.  Machine floats are modelled as rationals: every
number handled by the pipeline is produced by decimal-literal parsing and
addition, where float rounding is not observable at the granularity of the
claims.
-/

namespace Medix

/-- A JSON value as produced by `JSON.parse`.  `undefined` is not a JSON
value; where the TypeScript source can observe `undefined` (absent object
fields) we use `Option JVal` with `none` for `undefined`. -/
inductive JVal where
  | jnull
  | jbool (b : Bool)
  | jnum (q : ℚ)
  | jstr (s : String)
  | jarr (elems : List JVal)
  | jobj (fields : List (String × JVal))
deriving Repr, Inhabited

/-- JS truthiness of a defined value: `null`, `false`, `0` and `""` are
falsy, every array and object is truthy. -/
def jvTruthy : JVal → Bool
  | .jnull => false
  | .jbool b => b
  | .jnum q => decide (q ≠ 0)
  | .jstr s => decide (s ≠ "")
  | .jarr _ => true
  | .jobj _ => true

/-- Property lookup on the field list of a decoded JSON object.  Later
duplicate keys overwrite earlier ones, exactly as in `JSON.parse`. -/
def objGet (fs : List (String × JVal)) (k : String) : Option JVal :=
  fs.foldl (fun acc p => if p.1 = k then some p.2 else acc) none

/-- JS property access `v[k]`.  Outer `none` models a thrown `TypeError`
(access on `null`); `some none` models `undefined`. -/
def jvGetChecked : JVal → String → Option (Option JVal)
  | .jnull, _ => none
  | .jobj fs, k => some (objGet fs k)
  | _, _ => some none

/-- JS whitespace for `String.prototype.trim` and `Number` coercion
(the common ASCII whitespace characters; exotic Unicode spaces are not
modelled since they cannot reach the claims). -/
def jsWsChar (c : Char) : Bool :=
  c = ' ' || c = '\t' || c = '\n' || c = '\r' || c = '\x0b' || c = '\x0c'

/-- Trim JS whitespace from both ends of a character list. -/
def jsTrim (cs : List Char) : List Char :=
  ((cs.dropWhile jsWsChar).reverse.dropWhile jsWsChar).reverse

/-- Value of a list of decimal digit characters. -/
def digitsVal (ds : List Char) : Nat :=
  ds.foldl (fun a c => a * 10 + (c.toNat - 48)) 0

/-- Exponent suffix of a JS numeric literal (after the mantissa). -/
def parseExpTail (base : ℚ) (cs : List Char) : Option ℚ :=
  let signed : Bool × List Char :=
    match cs with
    | '-' :: r => (true, r)
    | '+' :: r => (false, r)
    | _ => (false, cs)
  let ed := signed.2.takeWhile Char.isDigit
  let r2 := signed.2.dropWhile Char.isDigit
  if ed.isEmpty || !r2.isEmpty then none
  else
    let e := digitsVal ed
    some (if signed.1 then base / ((10 : ℚ) ^ e) else base * ((10 : ℚ) ^ e))

/-- Optional exponent part; anything else trailing makes the literal
invalid (JS `Number("5x")` is `NaN`). -/
def parseExpSuffix (base : ℚ) (cs : List Char) : Option ℚ :=
  match cs with
  | [] => some base
  | 'e' :: r => parseExpTail base r
  | 'E' :: r => parseExpTail base r
  | _ => none

/-- Unsigned JS decimal literal `digits [. digits] [exponent]`, consuming
the whole input. -/
def parsePosNumber (cs : List Char) : Option ℚ :=
  let ip := cs.takeWhile Char.isDigit
  let r1 := cs.dropWhile Char.isDigit
  match r1 with
  | '.' :: r2 =>
      let fp := r2.takeWhile Char.isDigit
      let r3 := r2.dropWhile Char.isDigit
      if ip.isEmpty && fp.isEmpty then none
      else
        parseExpSuffix ((digitsVal ip : ℚ) + (digitsVal fp : ℚ) / ((10 : ℚ) ^ fp.length)) r3
  | _ =>
      if ip.isEmpty then none
      else parseExpSuffix ((digitsVal ip : ℚ)) r1

/-- JS `Number(string)`: trim, empty means `0`, otherwise a signed decimal
literal or `NaN` (`none`).  Hex/binary/octal literals and `Infinity` are
not modelled; no such string reaches the claims. -/
def jsStringToNumber (s : String) : Option ℚ :=
  let cs := jsTrim s.toList
  if cs.isEmpty then some 0
  else
    match cs with
    | '-' :: r => (parsePosNumber r).map Neg.neg
    | '+' :: r => parsePosNumber r
    | _ => parsePosNumber cs

/-- JS `Number(x)` on a possibly-undefined value; `none` is `NaN`.
Arrays and plain objects are approximated as `NaN` (for an object the JS
result is `Number("[object Object]") = NaN` exactly; for an array JS would
first join its elements — that corner is unreachable in the pipeline). -/
def jvToNumber : Option JVal → Option ℚ
  | none => none
  | some .jnull => some 0
  | some (.jbool b) => some (if b then 1 else 0)
  | some (.jnum q) => some q
  | some (.jstr s) => jsStringToNumber s
  | some (.jarr _) => none
  | some (.jobj _) => none

/-- The idiom `Number(x) || 0` from the source: `NaN` (and `0` itself)
collapse to `0`. -/
def numOr0 (v : Option JVal) : ℚ :=
  (jvToNumber v).getD 0

/-- Stringification of one array element inside `Array.prototype.join`:
`null` joins as the empty string.  Arrays nested inside arrays are
approximated by the empty string (one level of nesting is enough for any
value this pipeline stringifies). -/
def jvElemToString : JVal → String
  | .jnull => ""
  | .jbool b => if b then "true" else "false"
  | .jnum q => if q.den = 1 then toString q.num else toString q
  | .jstr s => s
  | .jarr _ => ""
  | .jobj _ => "[object Object]"

/-- JS `String(x)`.  Integer numbers print exactly as in JS; the printing
of non-integer rationals is approximated by the `Rat` representation
(never reached by the claims, which only stringify strings). -/
def jvToString : JVal → String
  | .jnull => "null"
  | .jbool b => if b then "true" else "false"
  | .jnum q => if q.den = 1 then toString q.num else toString q
  | .jstr s => s
  | .jarr xs => String.intercalate "," (xs.map jvElemToString)
  | .jobj _ => "[object Object]"

/-- First truthy value of the JS chain `a || b`, if any. -/
def truthyOrNone (a : Option JVal) : Option JVal :=
  match a with
  | some v => if jvTruthy v then some v else none
  | none => none

/-- The source idiom `String(a || b || '')`. -/
def strOfChain (a b : Option JVal) : String :=
  match truthyOrNone a with
  | some v => jvToString v
  | none =>
    match truthyOrNone b with
    | some v => jvToString v
    | none => ""

/-! JSON parsing (`JSON.parse`), written as a fuel-indexed recursive-descent
parser.  The fuel is at least the input length plus one, which bounds the
recursion depth, so the parser is total. -/

/-- JSON whitespace accepted between tokens by `JSON.parse`. -/
def jsonWsChar (c : Char) : Bool :=
  c = ' ' || c = '\t' || c = '\n' || c = '\r'

/-- Skip JSON whitespace. -/
def skipWs (cs : List Char) : List Char :=
  cs.dropWhile jsonWsChar

/-- Value of a hexadecimal digit. -/
def hexVal (c : Char) : Option Nat :=
  if '0' ≤ c ∧ c ≤ '9' then some (c.toNat - 48)
  else if 'a' ≤ c ∧ c ≤ 'f' then some (c.toNat - 87)
  else if 'A' ≤ c ∧ c ≤ 'F' then some (c.toNat - 55)
  else none

/-- Single-character JSON string escapes. -/
def escChar : Char → Option Char
  | '"' => some '"'
  | '\\' => some '\\'
  | '/' => some '/'
  | 'b' => some '\x08'
  | 'f' => some '\x0c'
  | 'n' => some '\n'
  | 'r' => some '\r'
  | 't' => some '\t'
  | _ => none

/-- Body of a JSON string literal (after the opening quote), accumulating
characters in reverse. -/
def parseJStr : Nat → List Char → List Char → Option (String × List Char)
  | 0, _, _ => none
  | Nat.succ fuel, acc, cs =>
    match cs with
    | [] => none
    | '"' :: r => some (String.mk acc.reverse, r)
    | '\\' :: 'u' :: a :: b :: c :: d :: r => do
        let ha ← hexVal a
        let hb ← hexVal b
        let hc ← hexVal c
        let hd ← hexVal d
        parseJStr fuel (Char.ofNat (((ha * 16 + hb) * 16 + hc) * 16 + hd) :: acc) r
    | '\\' :: e :: r => do
        let c2 ← escChar e
        parseJStr fuel (c2 :: acc) r
    | c :: r => parseJStr fuel (c :: acc) r

/-- A JSON number token (JSON grammar; leading zeros are tolerated, which
only widens acceptance on inputs no claim depends on). -/
def parseJNum (cs : List Char) : Option (ℚ × List Char) :=
  let signed : Bool × List Char :=
    match cs with
    | '-' :: r => (true, r)
    | _ => (false, cs)
  let ip := signed.2.takeWhile Char.isDigit
  let r1 := signed.2.dropWhile Char.isDigit
  if ip.isEmpty then none
  else
    let withFrac : Option (ℚ × List Char) :=
      match r1 with
      | '.' :: r2 =>
          let fp := r2.takeWhile Char.isDigit
          let r3 := r2.dropWhile Char.isDigit
          if fp.isEmpty then none
          else some ((digitsVal ip : ℚ) + (digitsVal fp : ℚ) / ((10 : ℚ) ^ fp.length), r3)
      | _ => some ((digitsVal ip : ℚ), r1)
    match withFrac with
    | none => none
    | some (base, r3) =>
      let withExp : Option (ℚ × List Char) :=
        match r3 with
        | 'e' :: r4 => parseJNumExp base r4
        | 'E' :: r4 => parseJNumExp base r4
        | _ => some (base, r3)
      match withExp with
      | none => none
      | some (v, r5) => some ((if signed.1 then -v else v), r5)
where
  parseJNumExp (base : ℚ) (cs : List Char) : Option (ℚ × List Char) :=
    let signed : Bool × List Char :=
      match cs with
      | '-' :: r => (true, r)
      | '+' :: r => (false, r)
      | _ => (false, cs)
    let ed := signed.2.takeWhile Char.isDigit
    let r2 := signed.2.dropWhile Char.isDigit
    if ed.isEmpty then none
    else
      let e := digitsVal ed
      some ((if signed.1 then base / ((10 : ℚ) ^ e) else base * ((10 : ℚ) ^ e)), r2)

mutual

/-- A JSON value, returning the remaining input. -/
def parseJVal : Nat → List Char → Option (JVal × List Char)
  | 0, _ => none
  | Nat.succ fuel, cs =>
    match skipWs cs with
    | 'n' :: 'u' :: 'l' :: 'l' :: r => some (.jnull, r)
    | 't' :: 'r' :: 'u' :: 'e' :: r => some (.jbool true, r)
    | 'f' :: 'a' :: 'l' :: 's' :: 'e' :: r => some (.jbool false, r)
    | '"' :: r => (parseJStr (r.length + 1) [] r).map (fun p => (.jstr p.1, p.2))
    | '[' :: r =>
        (match skipWs r with
         | ']' :: r2 => some (.jarr [], r2)
         | r2 => (parseJElems fuel r2).map (fun p => (.jarr p.1, p.2)))
    | '\x7b' :: r =>
        (match skipWs r with
         | '\x7d' :: r2 => some (.jobj [], r2)
         | r2 => (parseJMembers fuel r2).map (fun p => (.jobj p.1, p.2)))
    | cs2 => (parseJNum cs2).map (fun p => (.jnum p.1, p.2))

/-- Comma-separated JSON array elements up to the closing bracket. -/
def parseJElems : Nat → List Char → Option (List JVal × List Char)
  | 0, _ => none
  | Nat.succ fuel, cs => do
    let (v, r) ← parseJVal fuel cs
    match skipWs r with
    | ',' :: r2 => do
        let (vs, r3) ← parseJElems fuel (skipWs r2)
        some (v :: vs, r3)
    | ']' :: r2 => some ([v], r2)
    | _ => none

/-- Comma-separated JSON object members up to the closing brace. -/
def parseJMembers : Nat → List Char → Option (List (String × JVal) × List Char)
  | 0, _ => none
  | Nat.succ fuel, cs =>
    match skipWs cs with
    | '"' :: r => do
        let (k, r1) ← parseJStr (r.length + 1) [] r
        match skipWs r1 with
        | ':' :: r2 => do
            let (v, r3) ← parseJVal fuel (skipWs r2)
            match skipWs r3 with
            | ',' :: r4 => do
                let (ms, r5) ← parseJMembers fuel (skipWs r4)
                some ((k, v) :: ms, r5)
            | '\x7d' :: r4 => some ([(k, v)], r4)
            | _ => none
        | _ => none
    | _ => none

end

/-- `JSON.parse`: parse one value and require only whitespace afterwards;
`none` models a thrown `SyntaxError`. -/
def jsonParse (s : String) : Option JVal :=
  match parseJVal (s.length + 2) s.toList with
  | some (v, rest) => if (skipWs rest).isEmpty then some v else none
  | none => none

/-! Candidate extraction of `parseBillText`: prefer a fenced block labeled
json, else any fenced block, else the substring between the first opening
and last closing brace (`src/services/openRouterExtraction.service.ts`,
lines 128-142). -/

/-- First index at which `pat` occurs in `cs` (JS `String.indexOf`). -/
def findSubIdx (pat cs : List Char) : Option Nat :=
  (List.range (cs.length + 1)).find? (fun i => pat.isPrefixOf (cs.drop i))

/-- Content of the first fenced block opened by `opener` and closed by a
later triple backtick, with surrounding whitespace trimmed — the capture
group of the fence regexes in the source. -/
def fenceExtract (opener cs : List Char) : Option (List Char) := do
  let i ← findSubIdx opener cs
  let after := cs.drop (i + opener.length)
  let j ← findSubIdx ("```".toList) after
  some (jsTrim (after.take j))

/-- JS `String.prototype.substring`: clamps and swaps its arguments. -/
def jsSubstring (cs : List Char) (a b : Nat) : List Char :=
  (cs.take (max a b)).drop (min a b)

/-- The fallback of the source: substring from the first opening brace to
the last closing brace, if both exist; otherwise the input unchanged. -/
def braceCandidate (cs : List Char) : List Char :=
  match cs.findIdx? (fun c => c = '\x7b'),
        (cs.reverse.findIdx? (fun c => c = '\x7d')).map (fun k => cs.length - 1 - k) with
  | some i, some j => jsSubstring cs i (j + 1)
  | _, _ => cs

/-- The decoded candidate string handed to `JSON.parse`, including the
initial defaulting of empty content to an empty JSON object. -/
def extractCandidate (content : String) : String :=
  let cs := (if content = "" then "\x7b\x7d" else content).toList
  match fenceExtract ("```json".toList) cs with
  | some inner => String.mk inner
  | none =>
    match fenceExtract ("```".toList) cs with
    | some inner => String.mk inner
    | none => String.mk (braceCandidate cs)

/-! The structured result of `parseBillText`
(`src/services/openRouterExtraction.service.ts`, lines 15-30, 125-167). -/

/-- One normalized bill line item (interface `ExtractedMedicine`). -/
structure ExtractedMedicine where
  medicine_name : String
  quantity : ℚ
  batch_number : String
  expiry_date : String
  mrp : ℚ
  rate : ℚ
deriving Repr, DecidableEq

/-- The parsed bill (interface `ParsedBillData`).  The invoice metadata
fields are passed through unvalidated from the decoded JSON, so they are
kept as raw JSON values; `none` models `undefined`. -/
structure ParsedBillData where
  invoiceNumber : Option JVal
  invoiceDate : Option JVal
  supplierName : Option JVal
  totalAmount : Option ℚ
  items : List ExtractedMedicine
deriving Repr

/-- The result of the catch branch: `return \x7b items: [] \x7d`. -/
def emptyParsedBill : ParsedBillData :=
  { invoiceNumber := none, invoiceDate := none, supplierName := none,
    totalAmount := none, items := [] }

/-- Normalization of one decoded item (the `.map` body at lines 147-154):
name/batch/expiry via `String(x || y || '')` with alternate field
spellings, numbers via `Number(x) || 0`.  `none` models a thrown
`TypeError` (property access on `null`). -/
def itemToMedicine (item : JVal) : Option ExtractedMedicine := do
  let mn ← jvGetChecked item ("medicine_name")
  let pn ← jvGetChecked item ("productName")
  let qty ← jvGetChecked item ("quantity")
  let bn ← jvGetChecked item ("batch_number")
  let bn2 ← jvGetChecked item ("batchNumber")
  let ed ← jvGetChecked item ("expiry_date")
  let ed2 ← jvGetChecked item ("expiryDate")
  let mrpv ← jvGetChecked item ("mrp")
  let ratev ← jvGetChecked item ("rate")
  some { medicine_name := strOfChain mn pn
         quantity := numOr0 qty
         batch_number := strOfChain bn bn2
         expiry_date := strOfChain ed ed2
         mrp := numOr0 mrpv
         rate := numOr0 ratev }

/-- Assembly of the success result from the decoded JSON value
(lines 147-162).  `none` models a thrown `TypeError` inside the try block
(for example `(5).map` when `items` is a truthy non-array), which the
source catches like a parse failure. -/
def buildResult (parsed : JVal) : Option ParsedBillData := do
  let itemsField ← jvGetChecked parsed ("items")
  let items ←
    match itemsField with
    | some v =>
      if jvTruthy v then
        match v with
        | .jarr xs => xs.mapM itemToMedicine
        | _ => none
      else some []
    | none => some []
  let inv ← jvGetChecked parsed ("invoiceNumber")
  let invd ← jvGetChecked parsed ("invoiceDate")
  let sup ← jvGetChecked parsed ("supplierName")
  let tot ← jvGetChecked parsed ("totalAmount")
  some { invoiceNumber := inv, invoiceDate := invd, supplierName := sup,
         totalAmount := some (numOr0 tot), items := items }

/-- `parseBillText` restricted to its pure content (the model response
string is the input; the network call around it is transport).  Any parse
failure or decoding `TypeError` lands in the catch branch and yields
`emptyParsedBill`; the function never throws. -/
def parseBillText (content : String) : ParsedBillData :=
  match jsonParse (extractCandidate content) with
  | none => emptyParsedBill
  | some parsed =>
    match buildResult parsed with
    | some r => r
    | none => emptyParsedBill

/-! Expiry-date interpretation
(`src/controllers/billImport.controller.ts`, lines 309-330). -/

/-- A calendar date as a JS `Date` stores it: signed year, zero-based
month index, day of month. -/
structure Date where
  year : Int
  monthIndex : Int
  day : Int
deriving Repr, DecidableEq

/-- `new Date(year, monthIndex, day)`: an out-of-range month index rolls
over into the year (floor semantics, as in JS).  Day rollover is not
modelled; the source only ever passes day 1. -/
def jsMakeDate (y m d : Int) : Date :=
  { year := y + Int.ediv m 12, monthIndex := Int.emod m 12, day := d }

/-- The regex `(\d\x7b1,2\x7d)[\/\-](\d\x7b2\x7d)` anchored at both ends:
a 1-2 digit month field, a slash or dash, and exactly two year digits. -/
def shortMatch (s : String) : Option (Nat × Nat) :=
  match s.toList with
  | [m1, sep, y1, y2] =>
      if m1.isDigit && (sep = '/' || sep = '-') && y1.isDigit && y2.isDigit then
        some (digitsVal [m1], digitsVal [y1, y2])
      else none
  | [m1, m2, sep, y1, y2] =>
      if m1.isDigit && m2.isDigit && (sep = '/' || sep = '-') && y1.isDigit && y2.isDigit then
        some (digitsVal [m1, m2], digitsVal [y1, y2])
      else none
  | _ => none

/-- The regex `(\d\x7b4\x7d)-(\d\x7b1,2\x7d)` anchored at both ends: four
year digits, a dash, and a 1-2 digit month field. -/
def isoMatch (s : String) : Option (Nat × Nat) :=
  match s.toList with
  | [y1, y2, y3, y4, sep, m1] =>
      if y1.isDigit && y2.isDigit && y3.isDigit && y4.isDigit && sep = '-' && m1.isDigit then
        some (digitsVal [y1, y2, y3, y4], digitsVal [m1])
      else none
  | [y1, y2, y3, y4, sep, m1, m2] =>
      if y1.isDigit && y2.isDigit && y3.isDigit && y4.isDigit && sep = '-' && m1.isDigit && m2.isDigit then
        some (digitsVal [y1, y2, y3, y4], digitsVal [m1, m2])
      else none
  | _ => none

/-- Modelled from the spec: the source's final fallback is the JS engine's
generic `new Date(string)` parsing, which beyond the ISO calendar-date
format is implementation-defined and not present in `src/`.  We model the
ISO `YYYY-MM-DD` form (with in-range month and day, as the engine
validates) and treat every other string as an invalid date, which the
source maps to `undefined`. -/
def jsDateParse (s : String) : Option Date :=
  match s.toList with
  | [y1, y2, y3, y4, '-', m1, m2, '-', d1, d2] =>
      if y1.isDigit && y2.isDigit && y3.isDigit && y4.isDigit
          && m1.isDigit && m2.isDigit && d1.isDigit && d2.isDigit then
        let m := digitsVal [m1, m2]
        let d := digitsVal [d1, d2]
        if 1 ≤ m && m ≤ 12 && 1 ≤ d && d ≤ 31 then
          some { year := digitsVal [y1, y2, y3, y4], monthIndex := (m : Int) - 1, day := d }
        else none
      else none
  | _ => none

/-- `parseExpiryDate` (lines 309-330): empty input short-circuits, then
MM/YY or MM-YY with the under-50 century pivot, then YYYY-MM, then the
generic fallback; `none` models `undefined`. -/
def parseExpiryDate (dateStr : String) : Option Date :=
  if dateStr = "" then none
  else
    match shortMatch dateStr with
    | some p =>
        let year : Int := if p.2 < 50 then 2000 + (p.2 : Int) else 1900 + (p.2 : Int)
        some (jsMakeDate year ((p.1 : Int) - 1) 1)
    | none =>
      match isoMatch dateStr with
      | some p => some (jsMakeDate (p.1 : Int) ((p.2 : Int) - 1) 1)
      | none => jsDateParse dateStr

/-! The batch reconciler, `confirmImport`
(`src/controllers/billImport.controller.ts`, lines 195-294).

The Prisma `Product` schema is not part of `src/`; following the spec's
data model (section 3), the nullable columns `batchNumber`, `expiryDate`,
`manufacturer` and the decimal price columns are modelled with `Option`
(`none` for SQL `NULL`), and a Prisma `create` whose field is the JS value
`undefined` stores `NULL`.  The generated `sku` mixes in `Date.now` and
`Math.random` and is read by nothing the claims mention, so it is left out
of the model. -/

/-- One inventory batch row of the store. -/
structure Product where
  id : Nat
  name : String
  batchNumber : Option String
  quantity : ℚ
  expiryDate : Option Date
  mrp : Option ℚ
  costPrice : Option ℚ
  sellingPrice : Option ℚ
  manufacturer : Option String
  category : String
  unit : String
  reorderLevel : ℚ
  description : String
deriving Repr, DecidableEq

/-- The store's inventory together with the id the next `create` uses. -/
structure StoreState where
  products : List Product
  nextId : Nat
deriving Repr, DecidableEq

/-- One reviewed item of the `confirm-import` request body.  The numeric
fields hold the result of the JS `Number` coercion the controller applies
(`none` for `NaN`); the string fields hold the raw request strings. -/
structure ImportItem where
  medicine_name : String
  batch_number : String
  quantity : Option ℚ
  mrp : Option ℚ
  rate : Option ℚ
  expiry_date : String
  supplier : String
deriving Repr, DecidableEq

/-- Truthiness of a nullable string column (`NULL` and `""` are falsy). -/
def optStrTruthy : Option String → Bool
  | some s => decide (s ≠ "")
  | none => false

/-- `item.expiry_date ? parseExpiryDate(item.expiry_date) : undefined`
(line 216). -/
def expiryValueOf (item : ImportItem) : Option Date :=
  if item.expiry_date = "" then none else parseExpiryDate item.expiry_date

/-- Lower-casing of one character (ASCII; the fragment of the database's
case-insensitive collation that the pipeline's names exercise). -/
def lowerChar (c : Char) : Char :=
  if 'A' ≤ c ∧ c ≤ 'Z' then Char.ofNat (c.toNat + 32) else c

/-- Case-insensitive normalization of a name. -/
def strLower (s : String) : String :=
  String.mk (s.toList.map lowerChar)

/-- The `findMany` of lines 222-227: every product of the store whose name
equals the item name case-insensitively (Prisma `mode: 'insensitive'`). -/
def nameFamily (st : StoreState) (name : String) : List Product :=
  st.products.filter (fun p => decide (strLower p.name = strLower name))

/-- The exact batch match of line 230: the first family member whose
stored `batchNumber` strictly equals (`===`) the item's batch string; a
`NULL` batch number never equals any string. -/
def findExact (st : StoreState) (item : ImportItem) : Option Product :=
  (nameFamily st item.medicine_name).find?
    (fun p => decide (p.batchNumber = some item.batch_number))

/-- The update payload of lines 240-253 applied to the matched row:
additive quantity, fill-only prices (an existing value greater than zero
is kept), and fill-only batch number, expiry and manufacturer, where a
trailing `undefined` in the payload leaves the column unchanged. -/
def applyUpdate (m : Product) (item : ImportItem) : Product :=
  let existingMrp := m.mrp.getD 0
  let existingCostPrice := m.costPrice.getD 0
  let existingSellingPrice := m.sellingPrice.getD 0
  let mrpValue := item.mrp.getD 0
  let costPriceValue := item.rate.getD 0
  let quantityValue := item.quantity.getD 0
  { m with
    quantity := m.quantity + quantityValue
    mrp := some (if existingMrp > 0 then existingMrp else mrpValue)
    costPrice := some (if existingCostPrice > 0 then existingCostPrice else costPriceValue)
    sellingPrice := some (if existingSellingPrice > 0 then existingSellingPrice else mrpValue)
    batchNumber :=
      if optStrTruthy m.batchNumber then m.batchNumber
      else if item.batch_number ≠ "" then some item.batch_number
      else m.batchNumber
    expiryDate :=
      match m.expiryDate with
      | some d => some d
      | none => expiryValueOf item
    manufacturer :=
      if optStrTruthy m.manufacturer then m.manufacturer
      else if item.supplier ≠ "" then some item.supplier
      else m.manufacturer }

/-- The create payload of lines 259-280: a new batch from the item, with
category, unit and reorder level taken from the blueprint (the first
member of the name family) when one exists. -/
def createProduct (newId : Nat) (blueprint : Option Product) (item : ImportItem) : Product :=
  { id := newId
    name := item.medicine_name
    batchNumber := if item.batch_number ≠ "" then some item.batch_number else none
    quantity := item.quantity.getD 0
    expiryDate := expiryValueOf item
    mrp := some (item.mrp.getD 0)
    costPrice := some (item.rate.getD 0)
    sellingPrice := some (item.mrp.getD 0)
    manufacturer := if item.supplier ≠ "" then some item.supplier else none
    category := match blueprint with | some bp => bp.category | none => "MEDICINE"
    unit := match blueprint with | some bp => bp.unit | none => "pcs"
    reorderLevel := match blueprint with | some bp => bp.reorderLevel | none => 10
    description := "Imported from Supplier Bill" }

/-- One loop iteration of `confirmImport` (lines 208-283): update the
matched batch, or append a freshly created one.  The boolean is `true`
when the create path was taken. -/
def processItem (st : StoreState) (item : ImportItem) : StoreState × Bool :=
  match findExact st item with
  | some m =>
      ({ st with
          products := st.products.map (fun p => if p.id = m.id then applyUpdate m item else p) },
        false)
  | none =>
      ({ products := st.products ++ [createProduct st.nextId (nameFamily st item.medicine_name).head? item]
         nextId := st.nextId + 1 },
        true)

/-- The item loop with the created/updated tallies.  `plan` models the
outcomes of the external persistence layer: its head decides whether the
current item's database operation throws; a thrown operation leaves the
store as it was before that item and aborts the loop (the caught error),
carrying the state reached so far. -/
def runItems : List Bool → StoreState → List ImportItem → Nat → Nat →
    Except StoreState (StoreState × Nat × Nat)
  | _, st, [], c, u => Except.ok (st, c, u)
  | plan, st, item :: rest, c, u =>
    if plan.headD false then Except.error st
    else
      let r := processItem st item
      if r.2 then runItems plan.tail r.1 rest (c + 1) u
      else runItems plan.tail r.1 rest c (u + 1)

/-- The success message of line 287. -/
def importMessage (created updated : Nat) : String :=
  "Import confirmed. " ++ toString created ++ " new batches, " ++ toString updated
    ++ " stock updates."

/-- The HTTP responses `confirmImport` can send. -/
inductive HttpResponse where
  | badRequest (message : String)
  | okMsg (message : String)
  | serverError (message : String)
deriving Repr, DecidableEq

/-- `confirmImport` end to end: the request guard of lines 200-203
(`!storeId || !Array.isArray(items)`, with `none` for a missing store id
and for a non-array items field), the item loop, and the response.  The
returned state is the store after the run (partial on failure, since
nothing is rolled back). -/
def confirmImport : List Bool → Option String → Option (List ImportItem) → StoreState →
    HttpResponse × StoreState
  | plan, some sid, some its, st =>
    if sid = "" then (.badRequest ("Invalid request"), st)
    else
      match runItems plan st its 0 0 with
      | .ok (st', c, u) => (.okMsg (importMessage c u), st')
      | .error stf => (.serverError ("Failed to save inventory"), stf)
  | _, none, _, st => (.badRequest ("Invalid request"), st)
  | _, some _, none, st => (.badRequest ("Invalid request"), st)

/-- The store after processing a list of items with no failures — used to
state what "already-applied creates and updates stay in place" means. -/
def applyAll (st : StoreState) (l : List ImportItem) : StoreState :=
  l.foldl (fun s it => (processItem s it).1) st

/-! The multi-page orchestrator loop of `importBill`
(`src/controllers/billImport.controller.ts`, lines 36-60): items are
accumulated across pages and the invoice metadata block is adopted from a
page only when none is set yet and that page's `invoiceNumber` is
truthy. -/

/-- The orchestrator's `invoiceData` object. -/
structure InvoiceMeta where
  invoiceNumber : Option JVal
  invoiceDate : Option JVal
  supplierName : Option JVal
  totalAmount : Option ℚ
deriving Repr

/-- The initial empty `invoiceData = \x7b\x7d`. -/
def emptyMeta : InvoiceMeta :=
  { invoiceNumber := none, invoiceDate := none, supplierName := none, totalAmount := none }

/-- Truthiness of a possibly-undefined JS value. -/
def optTruthy : Option JVal → Bool
  | some v => jvTruthy v
  | none => false

/-- One page of the loop body (lines 44-54): concatenate the page's items;
adopt the page's whole metadata block iff no `invoiceNumber` is set yet
and the page supplies a truthy one. -/
def pageStep (acc : List ExtractedMedicine × InvoiceMeta) (page : ParsedBillData) :
    List ExtractedMedicine × InvoiceMeta :=
  (acc.1 ++ page.items,
   if !optTruthy acc.2.invoiceNumber && optTruthy page.invoiceNumber then
     { invoiceNumber := page.invoiceNumber, invoiceDate := page.invoiceDate,
       supplierName := page.supplierName, totalAmount := page.totalAmount }
   else acc.2)

/-- The whole page loop over the parsed pages in page order. -/
def importBillPages (pages : List ParsedBillData) : List ExtractedMedicine × InvoiceMeta :=
  pages.foldl pageStep ([], emptyMeta)

/-- Claim-side characterization (for the refinement statement): the
metadata block of the first page whose `invoiceNumber` is truthy, if
any. -/
def metaOfPages (pages : List ParsedBillData) : InvoiceMeta :=
  match pages.find? (fun pg => optTruthy pg.invoiceNumber) with
  | some pg =>
      { invoiceNumber := pg.invoiceNumber, invoiceDate := pg.invoiceDate,
        supplierName := pg.supplierName, totalAmount := pg.totalAmount }
  | none => emptyMeta

/-! Concrete inputs used by counterexamples and witnesses. -/

/-- A plain-prose model response with no braces and no fences. -/
def proseResponse : String :=
  "Sorry, I could not find any structured data in this bill."

/-- The spec's parser-resilience scenario: a fenced json block with string
quantity and mrp. -/
def fencedItemResponse : String :=
  "```json\n\x7b\"items\":[\x7b\"medicine_name\":\"X\",\"quantity\":\"10\",\"mrp\":\"50\"\x7d]\x7d\n```"

/-- A decoded response whose single item carries a negative quantity
string. -/
def negativeQtyResponse : String :=
  "\x7b\"items\":[\x7b\"quantity\":\"-5\"\x7d]\x7d"

/-- A reviewed import item whose batch number is empty. -/
def emptyBatchItem : ImportItem :=
  { medicine_name := "Paracetamol", batch_number := "", quantity := some 5,
    mrp := some 10, rate := some 8, expiry_date := "", supplier := "" }

/-- First import of a batch whose mrp string was misread as negative. -/
def negMrpItem1 : ImportItem :=
  { medicine_name := "Amoxicillin", batch_number := "B1", quantity := some 5,
    mrp := some (-5), rate := some 2, expiry_date := "", supplier := "" }

/-- A later import of the same (name, batch) with a different mrp. -/
def negMrpItem2 : ImportItem :=
  { medicine_name := "Amoxicillin", batch_number := "B1", quantity := some 7,
    mrp := some 7, rate := some 3, expiry_date := "", supplier := "" }

/-! Claims C5, C6, C7: the tolerant parser and the date interpreter. -/

/-- Claim C5: for every model-response string, `parseBillText` never
throws on malformed content — it is a total function here, and whenever
`JSON.parse` fails on the decoded candidate it returns an empty item list
with no invoice metadata.  (No failure of the decoding stage escapes the
catch branch.) -/
theorem parseBillText_parse_failure (content : String)
    (h : jsonParse (extractCandidate content) = none) :
    parseBillText content = emptyParsedBill := by
  unfold parseBillText
  rw [h]

/-- Witness for C5: a plain-prose response with no JSON-like braces fails
to parse and yields the empty result. -/
theorem parseBillText_parse_failure_witness :
    jsonParse (extractCandidate proseResponse) = none
      ∧ parseBillText proseResponse = emptyParsedBill :=
  ⟨by rfl, parseBillText_parse_failure proseResponse (by rfl)⟩

/-- Counterexample to C6 as stated: the coercion `Number(x) || 0` does not
clamp to non-negative values — a decoded quantity string of minus five
yields the negative number minus five, not zero and not a non-negative
number. -/
theorem parseBillText_negative_quantity :
    (parseBillText negativeQtyResponse).items.map ExtractedMedicine.quantity = [(-5 : ℚ)]
      ∧ ((-5 : ℚ) < 0) :=
  ⟨by rfl, by norm_num⟩

/-- Claim C6 (amended: the numeric coercions default to 0 only when the
coercion yields NaN; negative numeric inputs pass through unclamped):
per decoded item object, quantity/mrp/rate are coerced with
`Number(x) || 0`, the name/batch/expiry fields with `String(x || y || '')`
accepting the alternate spellings, and the spec's fenced example decodes
to quantity 10, mrp 50 and an empty batch number. -/
theorem parseBillText_item_coercions :
    (∀ fs : List (String × JVal),
        itemToMedicine (JVal.jobj fs) =
          some { medicine_name := strOfChain (objGet fs ("medicine_name")) (objGet fs ("productName"))
                 quantity := numOr0 (objGet fs ("quantity"))
                 batch_number := strOfChain (objGet fs ("batch_number")) (objGet fs ("batchNumber"))
                 expiry_date := strOfChain (objGet fs ("expiry_date")) (objGet fs ("expiryDate"))
                 mrp := numOr0 (objGet fs ("mrp"))
                 rate := numOr0 (objGet fs ("rate")) })
    ∧ (∀ v, jvToNumber v = none → numOr0 v = 0)
    ∧ (parseBillText fencedItemResponse).items
        = [{ medicine_name := "X", quantity := 10, batch_number := "",
             expiry_date := "", mrp := 50, rate := 0 }] := by
  refine ⟨fun fs => rfl, fun v h => ?_, by rfl⟩
  simp [numOr0, h]

/-- Witness for C6: the alternate-spelling and NaN-default clauses at
concrete inputs. -/
theorem parseBillText_item_coercions_witness :
    itemToMedicine (JVal.jobj [(("batchNumber"), JVal.jstr ("B7"))])
      = some { medicine_name := "", quantity := 0, batch_number := "B7",
               expiry_date := "", mrp := 0, rate := 0 }
      ∧ numOr0 (some (JVal.jstr ("ten"))) = 0 := by
  constructor
  · exact (parseBillText_item_coercions.1 [(("batchNumber"), JVal.jstr ("B7"))]).trans (by rfl)
  · exact parseBillText_item_coercions.2.1 (some (JVal.jstr ("ten"))) (by rfl)

/-- Claim C7: the expiry rules apply in order with first match winning —
empty input is immediately unknown; a 1-2 digit month with a two-digit
year maps the year across the under-50 century pivot and gives the first
day of the month; a 4-digit-year YYYY-MM string gives the first day of
that month; otherwise the generic fallback is attempted and its failure
gives unknown without an error. -/
theorem parseExpiryDate_rules :
    (parseExpiryDate ("") = none)
    ∧ (∀ s m y, shortMatch s = some (m, y) → 1 ≤ m → m ≤ 12 →
        parseExpiryDate s =
          some { year := if y < 50 then 2000 + (y : Int) else 1900 + (y : Int),
                 monthIndex := (m : Int) - 1, day := 1 })
    ∧ (∀ s y m, shortMatch s = none → isoMatch s = some (y, m) → 1 ≤ m → m ≤ 12 →
        parseExpiryDate s = some { year := (y : Int), monthIndex := (m : Int) - 1, day := 1 })
    ∧ (∀ s, shortMatch s = none → isoMatch s = none → jsDateParse s = none →
        parseExpiryDate s = none) := by
  refine ⟨by rfl, fun s m y h h1 h2 => ?_, fun s y m h0 h h1 h2 => ?_, fun s h0 h1 h2 => ?_⟩
  · have hs : s ≠ "" := by
      intro he
      rw [he] at h
      exact Option.noConfusion h
    have h0a : (0 : Int) ≤ (m : Int) - 1 := by omega
    have hdiv : Int.ediv ((m : Int) - 1) 12 = 0 := Int.ediv_eq_zero_of_lt h0a (by omega)
    have hmod : Int.emod ((m : Int) - 1) 12 = (m : Int) - 1 := Int.emod_eq_of_lt h0a (by omega)
    unfold parseExpiryDate
    rw [if_neg hs, h]
    simp only [jsMakeDate, hdiv, hmod, add_zero]
  · have hs : s ≠ "" := by
      intro he
      rw [he] at h
      exact Option.noConfusion h
    have h0a : (0 : Int) ≤ (m : Int) - 1 := by omega
    have hdiv : Int.ediv ((m : Int) - 1) 12 = 0 := Int.ediv_eq_zero_of_lt h0a (by omega)
    have hmod : Int.emod ((m : Int) - 1) 12 = (m : Int) - 1 := Int.emod_eq_of_lt h0a (by omega)
    unfold parseExpiryDate
    rw [if_neg hs, h0, h]
    simp only [jsMakeDate, hdiv, hmod, add_zero]
  · by_cases hs : s = ""
    · rw [hs]
      rfl
    · unfold parseExpiryDate
      rw [if_neg hs, h0, h1, h2]

/-- Witness for C7: the spec's round-trip inputs. -/
theorem parseExpiryDate_rules_witness :
    parseExpiryDate ("05/26") = some { year := 2026, monthIndex := 4, day := 1 }
      ∧ parseExpiryDate ("2025-11") = some { year := 2025, monthIndex := 10, day := 1 }
      ∧ parseExpiryDate ("not-a-date") = none
      ∧ parseExpiryDate ("") = none := by
  refine ⟨?_, ?_, ?_, parseExpiryDate_rules.1⟩
  · have h := parseExpiryDate_rules.2.1 ("05/26") 5 26 (by rfl) (by decide) (by decide)
    rw [if_pos (by decide : (26 : Nat) < 50)] at h
    exact h.trans (by norm_num)
  · have h := parseExpiryDate_rules.2.2.1 ("2025-11") 2025 11 (by rfl) (by rfl)
      (by decide) (by decide)
    exact h.trans (by norm_num)
  · exact parseExpiryDate_rules.2.2.2 ("not-a-date") (by rfl) (by rfl) (by rfl)

/-! Claims C1, C3, C4: the matching step, the update path and the create
path of the reconciler. -/

/-- Counterexample to C1 as stated: an item with an empty batch number
does not match the batch previously created from an item with an empty
batch number.  The create path stores `NULL` (the payload is
`batch || undefined`), and `NULL === ""` is false, so importing the same
empty-batch item twice reports two creates and zero updates — under the
claim the second import would have to take the update path. -/
theorem emptyBatch_rematch_fails :
    (confirmImport [] (some ("s1")) (some [emptyBatchItem, emptyBatchItem]) ⟨[], 0⟩).1
      = HttpResponse.okMsg (importMessage 2 0) := by
  rfl

/-- What a successful exact-batch match guarantees: membership in the
store, case-insensitive name equality, and strict batch-number equality
against a stored string. -/
lemma findExact_spec (st : StoreState) (item : ImportItem) (p : Product)
    (h : findExact st item = some p) :
    p ∈ st.products ∧ strLower p.name = strLower item.medicine_name
      ∧ p.batchNumber = some item.batch_number := by
  have hmem := List.mem_of_find?_eq_some h
  have hpred := List.find?_some h
  rw [nameFamily, List.mem_filter] at hmem
  refine ⟨hmem.1, ?_, ?_⟩
  · exact of_decide_eq_true hmem.2
  · exact of_decide_eq_true hpred

/-- Claim C1 (amended: the exact-batch-match step selects a stored batch
whose name matches case-insensitively and whose stored batch number is a
string strictly equal to the item's batch number; an empty item batch
number therefore matches only a stored empty string — never the `NULL`
stored by the create path for empty batch numbers, so an empty-batch item
re-imported after its own create takes the create path again). -/
theorem findExact_characterization :
    (∀ st item p, findExact st item = some p →
        p ∈ st.products ∧ strLower p.name = strLower item.medicine_name
          ∧ p.batchNumber = some item.batch_number)
    ∧ (∀ n bp item, item.batch_number = "" → (createProduct n bp item).batchNumber = none) := by
  constructor
  · exact findExact_spec
  · intro n bp item h
    simp [createProduct, h]

/-- Witness for C1: the amended characterization at a concrete store and
item. -/
theorem findExact_characterization_witness :
    (findExact ⟨[createProduct 0 none negMrpItem1], 1⟩ negMrpItem2
        = some (createProduct 0 none negMrpItem1)
      → (createProduct 0 none negMrpItem1) ∈
          ([createProduct 0 none negMrpItem1] : List Product))
    ∧ (createProduct 3 none emptyBatchItem).batchNumber = none := by
  constructor
  · intro h
    exact (findExact_characterization.1 ⟨[createProduct 0 none negMrpItem1], 1⟩
      negMrpItem2 (createProduct 0 none negMrpItem1) h).1
  · exact findExact_characterization.2 3 none emptyBatchItem (by rfl)

/-- Counterexample to C3 as stated: a stored mrp that is nonzero but not
greater than zero is overwritten.  The first import stores mrp minus five
(nonzero); reconciling the same (name, batch) with mrp seven replaces the
stored value, because the source keeps the existing value only when it is
strictly positive. -/
theorem nonzero_negative_mrp_overwritten :
    (runItems [] ⟨[], 0⟩ [negMrpItem1] 0 0).map (fun r => r.1.products.map Product.mrp)
        = Except.ok [some (-5)]
      ∧ (runItems [] ⟨[], 0⟩ [negMrpItem1, negMrpItem2] 0 0).map
          (fun r => r.1.products.map Product.mrp) = Except.ok [some 7]
      ∧ ((-5 : ℚ) ≠ 0) ∧ negMrpItem2.mrp = some 7 ∧ ((7 : ℚ) ≠ -5) :=
  ⟨by rfl, by rfl, by norm_num, by rfl, by norm_num⟩

/-- Claim C3 (amended: "nonzero" must read "greater than zero"): on the
update path, mrp and costPrice keep the existing stored value whenever it
is greater than zero and otherwise adopt the item's value; sellingPrice
keeps its existing value whenever greater than zero and otherwise adopts
the item's mrp; in particular a stored mrp greater than zero is left
unchanged by any later import of the same (name, batch). -/
theorem updatePath_fill_only (st : StoreState) (item : ImportItem) (m : Product)
    (h : findExact st item = some m) :
    (processItem st item).1.products
        = st.products.map (fun p => if p.id = m.id then applyUpdate m item else p)
      ∧ (applyUpdate m item).mrp
          = some (if 0 < m.mrp.getD 0 then m.mrp.getD 0 else item.mrp.getD 0)
      ∧ (applyUpdate m item).costPrice
          = some (if 0 < m.costPrice.getD 0 then m.costPrice.getD 0 else item.rate.getD 0)
      ∧ (applyUpdate m item).sellingPrice
          = some (if 0 < m.sellingPrice.getD 0 then m.sellingPrice.getD 0 else item.mrp.getD 0)
      ∧ (0 < m.mrp.getD 0 → (applyUpdate m item).mrp = m.mrp) := by
  refine ⟨?_, by rfl, by rfl, by rfl, ?_⟩
  · unfold processItem
    rw [h]
  · intro hpos
    show some (if 0 < m.mrp.getD 0 then m.mrp.getD 0 else item.mrp.getD 0) = m.mrp
    rw [if_pos hpos]
    cases hm : m.mrp with
    | none => rw [hm] at hpos; simp at hpos
    | some x => rfl

/-- Witness for C3: a concrete update step where the positive stored mrp
survives an import carrying a different mrp. -/
theorem updatePath_fill_only_witness :
    (applyUpdate (createProduct 0 none negMrpItem2) negMrpItem1).mrp = some 7 := by
  have h := updatePath_fill_only ⟨[createProduct 0 none negMrpItem2], 1⟩ negMrpItem1
    (createProduct 0 none negMrpItem2) (by rfl)
  exact (h.2.2.2.2 (by decide)).trans (by rfl)

/-- Claim C4: the create path builds the new batch from the item —
quantity, batch number (empty stored as `NULL`), parsed expiry, mrp,
costPrice from the item's rate, sellingPrice from the item's mrp (never
the cost), manufacturer from the supplier name (empty stored as `NULL`) —
and inherits category, unit and reorderLevel from the first member of the
name family when one exists, with the fixed defaults otherwise. -/
theorem createPath_fields (st : StoreState) (item : ImportItem)
    (h : findExact st item = none) :
    ∃ P, (processItem st item).1.products = st.products ++ [P]
      ∧ P.quantity = item.quantity.getD 0
      ∧ P.batchNumber = (if item.batch_number ≠ "" then some item.batch_number else none)
      ∧ P.expiryDate = expiryValueOf item
      ∧ P.mrp = some (item.mrp.getD 0)
      ∧ P.costPrice = some (item.rate.getD 0)
      ∧ P.sellingPrice = some (item.mrp.getD 0)
      ∧ P.manufacturer = (if item.supplier ≠ "" then some item.supplier else none)
      ∧ (nameFamily st item.medicine_name = [] →
          P.category = "MEDICINE" ∧ P.unit = "pcs" ∧ P.reorderLevel = 10)
      ∧ (∀ bp rest, nameFamily st item.medicine_name = bp :: rest →
          P.category = bp.category ∧ P.unit = bp.unit ∧ P.reorderLevel = bp.reorderLevel
            ∧ bp ∈ st.products ∧ strLower bp.name = strLower item.medicine_name) := by
  refine ⟨createProduct st.nextId (nameFamily st item.medicine_name).head? item,
    ?_, by rfl, by rfl, by rfl, by rfl, by rfl, by rfl, by rfl, ?_, ?_⟩
  · unfold processItem
    rw [h]
  · intro hfam
    have hh : (nameFamily st item.medicine_name).head? = none := by rw [hfam]; rfl
    rw [hh]
    exact ⟨rfl, rfl, rfl⟩
  · intro bp rest hfam
    have hbp : bp ∈ nameFamily st item.medicine_name := by
      rw [hfam]; exact List.mem_cons_self bp rest
    rw [nameFamily, List.mem_filter] at hbp
    have hh : (nameFamily st item.medicine_name).head? = some bp := by rw [hfam]; rfl
    rw [hh]
    exact ⟨rfl, rfl, rfl, hbp.1, of_decide_eq_true hbp.2⟩

/-- Witness for C4: importing a wholly new name into an empty store gives
the fixed default blueprint. -/
theorem createPath_fields_witness :
    ∃ P, (processItem ⟨[], 7⟩ negMrpItem1).1.products = [] ++ [P]
      ∧ P.quantity = 5 ∧ P.mrp = some (-5) ∧ P.costPrice = some 2
      ∧ P.sellingPrice = some (-5)
      ∧ P.category = "MEDICINE" ∧ P.unit = "pcs" ∧ P.reorderLevel = 10 := by
  obtain ⟨P, hprod, hq, _, _, hmrp, hcost, hsell, _, hdef, _⟩ :=
    createPath_fields ⟨[], 7⟩ negMrpItem1 (by rfl)
  obtain ⟨hcat, hunit, hreo⟩ := hdef (by rfl)
  exact ⟨P, hprod, by rw [hq]; rfl, by rw [hmrp]; rfl, by rw [hcost]; rfl,
    by rw [hsell]; rfl, hcat, hunit, hreo⟩

/-! Claims C10 and C8: tally bookkeeping and failure behavior of the
item loop. -/

/-- One unfolding step of the loop when the persistence plan is empty
(no failure scheduled). -/
lemma runItems_nil_plan_cons (st : StoreState) (it : ImportItem) (rest : List ImportItem)
    (c u : Nat) :
    runItems [] st (it :: rest) c u =
      (if (processItem st it).2 then runItems [] (processItem st it).1 rest (c + 1) u
       else runItems [] (processItem st it).1 rest c (u + 1)) := rfl

/-- With no persistence failures the loop always succeeds, and each item
adds exactly one to one of the two tallies. -/
lemma runItems_ok_total :
    ∀ (its : List ImportItem) (st : StoreState) (c u : Nat),
      ∃ st' c' u', runItems [] st its c u = Except.ok (st', c', u')
        ∧ c' + u' = c + u + its.length := by
  intro its
  induction its with
  | nil => exact fun st c u => ⟨st, c, u, rfl, by simp⟩
  | cons it rest ih =>
    intro st c u
    rw [runItems_nil_plan_cons]
    cases hr : (processItem st it).2 with
    | true =>
      obtain ⟨st', c', u', heq, hcnt⟩ := ih (processItem st it).1 (c + 1) u
      refine ⟨st', c', u', ?_, ?_⟩
      · simp [heq]
      · simp only [List.length_cons]
        omega
    | false =>
      obtain ⟨st', c', u', heq, hcnt⟩ := ih (processItem st it).1 c (u + 1)
      refine ⟨st', c', u', ?_, ?_⟩
      · simp [heq]
      · simp only [List.length_cons]
        omega

/-- Claim C10: when the store id is valid, the items field is an array and
every persistence operation succeeds, `confirmImport` reports a success
whose created and updated tallies sum to the number of submitted items. -/
theorem confirmImport_counts (sid : String) (hs : sid ≠ "") (its : List ImportItem)
    (st : StoreState) :
    ∃ c u st', confirmImport [] (some sid) (some its) st
        = (HttpResponse.okMsg (importMessage c u), st')
      ∧ c + u = its.length := by
  obtain ⟨st', c', u', heq, hcnt⟩ := runItems_ok_total its st 0 0
  refine ⟨c', u', st', ?_, by omega⟩
  show (if sid = "" then _ else _) = _
  rw [if_neg hs, heq]

/-- Witness for C10 at a concrete request. -/
theorem confirmImport_counts_witness :
    (("s1" : String) ≠ "")
      ∧ ∃ c u st', confirmImport [] (some ("s1")) (some [emptyBatchItem, negMrpItem1]) ⟨[], 0⟩
          = (HttpResponse.okMsg (importMessage c u), st')
        ∧ c + u = 2 :=
  ⟨by decide, confirmImport_counts ("s1") (by decide) [emptyBatchItem, negMrpItem1] ⟨[], 0⟩⟩

/-- Counterexample to C8 as stated: the failure response carries no count
of the items processed before the error.  A run that fails on its first
item and a run that fails after two successfully applied items produce
the identical generic response. -/
theorem failure_response_carries_no_count :
    (confirmImport [true] (some ("s1")) (some [negMrpItem1, negMrpItem2, emptyBatchItem])
        ⟨[], 0⟩).1
      = (confirmImport [false, false, true] (some ("s1"))
          (some [negMrpItem1, negMrpItem2, emptyBatchItem]) ⟨[], 0⟩).1
    ∧ (confirmImport [true] (some ("s1")) (some [negMrpItem1, negMrpItem2, emptyBatchItem])
        ⟨[], 0⟩).1 = HttpResponse.serverError ("Failed to save inventory") :=
  ⟨by rfl, by rfl⟩

/-- A failure scheduled after `k` successful items stops the loop there:
the effects of the first `k` items stay applied and nothing later runs. -/
lemma runItems_fail_at :
    ∀ (k : Nat) (its : List ImportItem) (st : StoreState) (c u : Nat), k < its.length →
      runItems (List.replicate k false ++ [true]) st its c u
        = Except.error (applyAll st (its.take k)) := by
  intro k
  induction k with
  | zero =>
    intro its st c u hk
    cases its with
    | nil => simp at hk
    | cons it rest => rfl
  | succ k ih =>
    intro its st c u hk
    cases its with
    | nil => simp at hk
    | cons it rest =>
      have hk' : k < rest.length := by
        simp only [List.length_cons] at hk
        omega
      have hstep : runItems (List.replicate (k + 1) false ++ [true]) st (it :: rest) c u =
          (if (processItem st it).2 then
            runItems (List.replicate k false ++ [true]) (processItem st it).1 rest (c + 1) u
          else
            runItems (List.replicate k false ++ [true]) (processItem st it).1 rest c (u + 1)) := rfl
      rw [hstep]
      have htake : applyAll st ((it :: rest).take (k + 1))
          = applyAll (processItem st it).1 (rest.take k) := by
        simp [applyAll, List.take_succ_cons]
      cases hr : (processItem st it).2 with
      | true => simpa [htake] using ih rest (processItem st it).1 (c + 1) u hk'
      | false => simpa [htake] using ih rest (processItem st it).1 c (u + 1) hk'

/-- Claim C8 (amended: the caller receives the generic failure message
with no count and no indication of which items succeeded): a persistence
failure on item `k` aborts the remaining items, leaves the creates and
updates of the first `k` items in place with no rollback, and answers
with the fixed serverError payload. -/
theorem confirmImport_failure_partial (sid : String) (hs : sid ≠ "")
    (items : List ImportItem) (st : StoreState) (k : Nat) (hk : k < items.length) :
    confirmImport (List.replicate k false ++ [true]) (some sid) (some items) st
      = (HttpResponse.serverError ("Failed to save inventory"), applyAll st (items.take k)) := by
  show (if sid = "" then _ else _) = _
  rw [if_neg hs, runItems_fail_at k items st 0 0 hk]

/-- Witness for C8: failing on the third item of a three-item import
keeps exactly the first two items' effects. -/
theorem confirmImport_failure_partial_witness :
    confirmImport (List.replicate 2 false ++ [true]) (some ("s1"))
        (some [negMrpItem1, negMrpItem2, emptyBatchItem]) ⟨[], 0⟩
      = (HttpResponse.serverError ("Failed to save inventory"),
          applyAll ⟨[], 0⟩ [negMrpItem1, negMrpItem2]) := by
  have h := confirmImport_failure_partial ("s1") (by decide)
    [negMrpItem1, negMrpItem2, emptyBatchItem] ⟨[], 0⟩ 2 (by decide)
  exact h.trans (by rfl)

/-! Claim C2: additive quantity across repeated reconciliations. -/

/-- Mapping an id-guarded update over rows whose ids all differ from the
target leaves the list unchanged. -/
lemma mapUpdate_eq_self (l : List Product) (i : Nat) (g : Product → Product)
    (h : ∀ p ∈ l, p.id ≠ i) :
    l.map (fun p => if p.id = i then g p else p) = l := by
  induction l with
  | nil => rfl
  | cons a t ih =>
    simp only [List.map_cons]
    rw [if_neg (h a (List.mem_cons_self a t)), ih (fun p hp => h p (List.mem_cons_of_mem a hp))]

/-- `find?` skips a prefix on which it returns nothing. -/
lemma find?_append_none {α : Type} (p : α → Bool) (l1 l2 : List α)
    (h : l1.find? p = none) :
    (l1 ++ l2).find? p = l2.find? p := by
  induction l1 with
  | nil => rfl
  | cons a t ih =>
    cases hpa : p a with
    | true =>
      rw [List.find?_cons_of_pos _ hpa] at h
      exact Option.noConfusion h
    | false =>
      rw [List.find?_cons_of_neg _ (by simp [hpa])] at h
      rw [List.cons_append, List.find?_cons_of_neg _ (by simp [hpa])]
      exact ih h

/-- In a store made of a family-free prefix plus one matching batch at
the end, the exact-match step finds exactly that batch. -/
lemma findExact_state (orig : List Product) (P : Product) (n : Nat) (it : ImportItem)
    (hnm : ∀ p ∈ orig, strLower p.name = strLower it.medicine_name →
        p.batchNumber ≠ some it.batch_number)
    (hPn : strLower P.name = strLower it.medicine_name)
    (hPb : P.batchNumber = some it.batch_number) :
    findExact ⟨orig ++ [P], n⟩ it = some P := by
  unfold findExact nameFamily
  show ((orig ++ [P]).filter _).find? _ = some P
  rw [List.filter_append]
  have hPf : List.filter (fun p => decide (strLower p.name = strLower it.medicine_name)) [P]
      = [P] := by
    simp [List.filter_cons, hPn]
  rw [hPf, find?_append_none]
  · rw [List.find?_cons_of_pos _ (by simp [hPb])]
  · rw [List.find?_eq_none]
    intro x hx
    rw [List.mem_filter] at hx
    simp only [decide_eq_true_eq]
    exact hnm x hx.1 (of_decide_eq_true hx.2)

/-- The inductive core of C2: starting from a store whose name family has
no exact match except the final batch `P`, every further item with the
same name and (non-empty) batch number takes the update path on `P`,
adding its quantity. -/
lemma runItems_same_batch (name batch : String) (hb : batch ≠ "") :
    ∀ (items : List ImportItem),
      (∀ it ∈ items, it.medicine_name = name ∧ it.batch_number = batch) →
    ∀ (orig : List Product) (P : Product) (n c u : Nat),
      (∀ p ∈ orig, p.id < n) →
      (∀ p ∈ orig, strLower p.name = strLower name → p.batchNumber ≠ some batch) →
      P.id = n → strLower P.name = strLower name → P.batchNumber = some batch →
      ∃ P', runItems [] ⟨orig ++ [P], n + 1⟩ items c u
              = Except.ok (⟨orig ++ [P'], n + 1⟩, c, u + items.length)
        ∧ P'.id = n ∧ strLower P'.name = strLower name ∧ P'.batchNumber = some batch
        ∧ P'.quantity = P.quantity + (items.map (fun it => it.quantity.getD 0)).sum := by
  intro items
  induction items with
  | nil =>
    intro _ orig P n c u _ _ hPid hPn hPb
    exact ⟨P, by simp [runItems], hPid, hPn, hPb, by simp⟩
  | cons it rest ih =>
    intro hsame orig P n c u hids hnm hPid hPn hPb
    obtain ⟨hitn, hitb⟩ := hsame it (List.mem_cons_self it rest)
    have hfind : findExact ⟨orig ++ [P], n + 1⟩ it = some P := by
      refine findExact_state orig P (n + 1) it ?_ ?_ ?_
      · rw [hitn, hitb]; exact hnm
      · rw [hitn]; exact hPn
      · rw [hitb]; exact hPb
    have hstep : processItem ⟨orig ++ [P], n + 1⟩ it =
        (⟨(orig ++ [P]).map (fun p => if p.id = P.id then applyUpdate P it else p), n + 1⟩,
          false) := by
      unfold processItem
      rw [hfind]
    have hmap : (orig ++ [P]).map (fun p => if p.id = P.id then applyUpdate P it else p)
        = orig ++ [applyUpdate P it] := by
      rw [List.map_append,
        mapUpdate_eq_self orig P.id _
          (fun p hp => by rw [hPid]; exact Nat.ne_of_lt (hids p hp))]
      simp
    have hP2b : (applyUpdate P it).batchNumber = some batch := by
      show (if optStrTruthy P.batchNumber then P.batchNumber
            else if it.batch_number ≠ "" then some it.batch_number
            else P.batchNumber) = some batch
      rw [hPb]
      simp [optStrTruthy, hb]
    obtain ⟨P', hrun, hid', hn', hb', hq'⟩ :=
      ih (fun x hx => hsame x (List.mem_cons_of_mem it hx)) orig (applyUpdate P it) n c (u + 1)
        hids hnm (by show P.id = n; exact hPid) (by show strLower P.name = _; exact hPn) hP2b
    refine ⟨P', ?_, hid', hn', hb', ?_⟩
    · rw [runItems_nil_plan_cons, hstep]
      simp only [if_neg Bool.false_ne_true]
      rw [hmap, hrun]
      simp only [List.length_cons]
      rw [show u + (rest.length + 1) = (u + 1) + rest.length from by omega]
    · rw [hq']
      show (P.quantity + it.quantity.getD 0) + _ = _
      simp only [List.map_cons, List.sum_cons]
      ring

/-- Counterexample to C2 as stated: with an empty batch number the later
re-import of the same (name, batch) does not update — both calls create, so
the first batch's quantity stays five instead of accumulating to ten. -/
theorem emptyBatch_quantity_not_summed :
    (runItems [] ⟨[], 0⟩ [emptyBatchItem, emptyBatchItem] 0 0).map
        (fun r => r.1.products.map Product.quantity) = Except.ok [5, 5]
      ∧ emptyBatchItem.quantity = some 5 :=
  ⟨by rfl, by rfl⟩

/-- Claim C2 (amended: the N-fold accumulation holds for a non-empty
batch number; an empty batch number creates a fresh batch every time,
see the counterexample): the update path adds the item quantity to the
existing quantity, and reconciling N same-name same-batch items against a
store with no prior exact match creates once, updates N-1 times, and
leaves the batch quantity at the sum of all the item quantities. -/
theorem additive_quantity_reconciliation :
    (∀ st item m, findExact st item = some m →
        ∃ p', p' ∈ (processItem st item).1.products ∧ p'.id = m.id
          ∧ p'.quantity = m.quantity + item.quantity.getD 0)
    ∧ (∀ (sid name batch : String), sid ≠ "" → batch ≠ "" →
        ∀ (st : StoreState), (∀ p ∈ st.products, p.id < st.nextId) →
          (∀ p ∈ st.products, strLower p.name = strLower name → p.batchNumber ≠ some batch) →
        ∀ (items : List ImportItem), items ≠ [] →
          (∀ it ∈ items, it.medicine_name = name ∧ it.batch_number = batch) →
        ∃ P st', confirmImport [] (some sid) (some items) st
            = (HttpResponse.okMsg (importMessage 1 (items.length - 1)), st')
          ∧ st'.products = st.products ++ [P]
          ∧ P.quantity = (items.map (fun it => it.quantity.getD 0)).sum) := by
  constructor
  · intro st item m h
    have hmem : m ∈ st.products := (findExact_spec st item m h).1
    refine ⟨applyUpdate m item, ?_, by rfl, by rfl⟩
    have hproc : (processItem st item).1.products
        = st.products.map (fun p => if p.id = m.id then applyUpdate m item else p) := by
      unfold processItem
      rw [h]
    rw [hproc]
    exact List.mem_map.mpr ⟨m, hmem, if_pos rfl⟩
  · intro sid name batch hsid hb st hids hnm items hne hsame
    cases items with
    | nil => exact absurd rfl hne
    | cons it1 rest =>
      obtain ⟨h1n, h1b⟩ := hsame it1 (List.mem_cons_self it1 rest)
      have hfe : findExact st it1 = none := by
        unfold findExact
        rw [List.find?_eq_none]
        intro x hx
        rw [nameFamily, List.mem_filter] at hx
        simp only [decide_eq_true_eq]
        rw [h1b]
        exact hnm x hx.1 (by rw [← h1n]; exact of_decide_eq_true hx.2)
      have hstep : processItem st it1 =
          (⟨st.products ++ [createProduct st.nextId (nameFamily st it1.medicine_name).head? it1],
            st.nextId + 1⟩, true) := by
        unfold processItem
        rw [hfe]
      set P0 := createProduct st.nextId (nameFamily st it1.medicine_name).head? it1 with hP0
      have hP0b : P0.batchNumber = some batch := by
        show (if it1.batch_number ≠ "" then some it1.batch_number else none) = some batch
        rw [h1b, if_pos hb]
      obtain ⟨P', hrun, _, _, _, hq'⟩ :=
        runItems_same_batch name batch hb rest
          (fun x hx => hsame x (List.mem_cons_of_mem it1 hx))
          st.products P0 st.nextId 1 0 hids hnm (by rfl)
          (by show strLower it1.medicine_name = _; rw [h1n]) hP0b
      refine ⟨P', ⟨st.products ++ [P'], st.nextId + 1⟩, ?_, by rfl, ?_⟩
      · show (if sid = "" then _ else _) = _
        rw [if_neg hsid]
        have hloop : runItems [] st (it1 :: rest) 0 0
            = Except.ok (⟨st.products ++ [P'], st.nextId + 1⟩, 1, rest.length) := by
          rw [runItems_nil_plan_cons, hstep]
          simpa using hrun
        rw [hloop]
        simp
      · rw [hq']
        show it1.quantity.getD 0 + _ = _
        simp

/-- Witness for C2: two imports of the same non-empty (name, batch) from
an empty store — one create, one update, final quantity the sum. -/
theorem additive_quantity_reconciliation_witness :
    ∃ P st', confirmImport [] (some ("s1")) (some [negMrpItem1, negMrpItem2]) ⟨[], 0⟩
        = (HttpResponse.okMsg (importMessage 1 1), st')
      ∧ st'.products = [] ++ [P] ∧ P.quantity = 12 := by
  obtain ⟨P, st', heq, hprod, hq⟩ :=
    additive_quantity_reconciliation.2 ("s1") ("Amoxicillin") ("B1")
      (by decide) (by decide) ⟨[], 0⟩ (by simp) (by simp)
      [negMrpItem1, negMrpItem2] (by simp) (by decide)
  refine ⟨P, st', by simpa using heq, hprod, ?_⟩
  rw [hq]
  norm_num [negMrpItem1, negMrpItem2]

/-! Claim C9: first-wins invoice metadata in the page loop. -/

/-- The item lists of all pages are concatenated in page order. -/
lemma pageFold_items :
    ∀ (pages : List ParsedBillData) (acc : List ExtractedMedicine × InvoiceMeta),
      (pages.foldl pageStep acc).1 = acc.1 ++ (pages.map ParsedBillData.items).join := by
  intro pages
  induction pages with
  | nil => intro acc; simp
  | cons p ps ih =>
    intro acc
    rw [List.foldl_cons, ih]
    show (acc.1 ++ p.items) ++ _ = _
    simp [List.append_assoc]

/-- Once a truthy invoice number is held, later pages never change the
metadata. -/
lemma pageFold_meta_stable :
    ∀ (pages : List ParsedBillData) (acc : List ExtractedMedicine × InvoiceMeta),
      optTruthy acc.2.invoiceNumber = true → (pages.foldl pageStep acc).2 = acc.2 := by
  intro pages
  induction pages with
  | nil => intro acc _; rfl
  | cons p ps ih =>
    intro acc h
    have hmeta : (pageStep acc p).2 = acc.2 := by
      simp [pageStep, h]
    rw [List.foldl_cons, ih (pageStep acc p) (by rw [hmeta]; exact h), hmeta]

/-- While no truthy invoice number is held, the metadata after the fold is
the block of the first page with a truthy invoice number, else the
accumulator's. -/
lemma pageFold_meta_from :
    ∀ (pages : List ParsedBillData) (acc : List ExtractedMedicine × InvoiceMeta),
      optTruthy acc.2.invoiceNumber = false →
      (pages.foldl pageStep acc).2 =
        (match pages.find? (fun pg => optTruthy pg.invoiceNumber) with
         | some pg =>
             { invoiceNumber := pg.invoiceNumber, invoiceDate := pg.invoiceDate,
               supplierName := pg.supplierName, totalAmount := pg.totalAmount }
         | none => acc.2) := by
  intro pages
  induction pages with
  | nil => intro acc _; rfl
  | cons p ps ih =>
    intro acc h
    cases hp : optTruthy p.invoiceNumber with
    | true =>
      have hmeta : (pageStep acc p).2 =
          { invoiceNumber := p.invoiceNumber, invoiceDate := p.invoiceDate,
            supplierName := p.supplierName, totalAmount := p.totalAmount } := by
        simp [pageStep, h, hp]
      rw [List.foldl_cons,
        pageFold_meta_stable ps (pageStep acc p) (by rw [hmeta]; exact hp), hmeta,
        List.find?_cons_of_pos ps
          (show (fun pg => optTruthy pg.invoiceNumber) p = true from hp)]
    | false =>
      have hmeta : (pageStep acc p).2 = acc.2 := by
        simp [pageStep, hp]
      rw [List.foldl_cons, ih (pageStep acc p) (by rw [hmeta]; exact h), hmeta,
        List.find?_cons_of_neg ps
          (show ¬ (fun pg => optTruthy pg.invoiceNumber) p = true from by simp [hp])]

/-- A first page with a non-empty supplier name but no invoice number. -/
def pageA : ParsedBillData :=
  { invoiceNumber := none, invoiceDate := none,
    supplierName := some (JVal.jstr ("ACME")), totalAmount := some 100, items := [] }

/-- A second page carrying a truthy invoice number and its own supplier
name. -/
def pageB : ParsedBillData :=
  { invoiceNumber := some (JVal.jstr ("INV-2")), invoiceDate := none,
    supplierName := some (JVal.jstr ("OTHER")), totalAmount := some 50, items := [] }

/-- Counterexample to C9 as stated: the first page carries non-empty
metadata (a supplier name) but no invoice number, so its metadata is
discarded and the second page's whole block is adopted — the retained
supplier name comes from page two, not page one. -/
theorem first_page_metadata_skipped :
    ((importBillPages [pageA, pageB]).2.supplierName).map jvToString = some ("OTHER")
      ∧ (pageA.supplierName).map jvToString = some ("ACME")
      ∧ (("OTHER" : String) ≠ ("ACME")) :=
  ⟨by rfl, by rfl, by decide⟩

/-- Claim C9 (amended: the metadata block kept is that of the first page
whose invoiceNumber is non-empty; pages without an invoice number
contribute no metadata even when their other fields are non-empty; once a
block is adopted every later page's metadata is ignored): items from all
pages are concatenated in page order, and the metadata is the first
truthy-invoice-number page's block. -/
theorem importBill_first_truthy_metadata (pages : List ParsedBillData) :
    (importBillPages pages).1 = (pages.map ParsedBillData.items).join
      ∧ (importBillPages pages).2 = metaOfPages pages := by
  constructor
  · simpa using pageFold_items pages ([], emptyMeta)
  · have h := pageFold_meta_from pages ([], emptyMeta) (by rfl)
    show (List.foldl pageStep ([], emptyMeta) pages).2 = metaOfPages pages
    rw [h]
    cases hf : List.find? (fun pg => optTruthy pg.invoiceNumber) pages <;>
      simp [metaOfPages, hf]

end Medix
